import Mathlib

/-!
# sshtunnel: a shallow embedding of `endpoint.go` and `ssh_tunnel.go`

The Go package forwards connections accepted on a local listener through an
SSH server to a remote endpoint.  The embedding keeps the package's names.

* Handles of the operating system and of `golang.org/x/crypto/ssh`
  (`net.Conn`, `*ssh.Client`, `net.Listener`) are identifiers.
* Every call that leaves the package (`net.Listen`, `ssh.Dial`,
  `serverConn.Dial`, `Close`, `Log.Printf`, the `go` statements) is recorded,
  in program order, in a trace of `Effect`s; what such a call returns is an
  input of the model.
* The unbuffered channel `tunnel.close` is the number of sends that have been
  offered on it and not yet received.
* `TunnelMem` is the tunnel with its three `*Endpoint` fields as pointers into
  a store of Endpoints; `Listen`, the one method that writes through such a
  pointer, runs on it.  `SSHTunnel` is the tunnel with the pointers
  dereferenced, for the methods that only read the Endpoints.
-/

namespace sshtunnel

/-- Go `error` values, identified with what `Error()` renders. -/
abbrev Err := String

/-- A `net.Conn` handle. -/
abbrev Conn := Nat

/-- An `*ssh.Client` handle. -/
abbrev Client := Nat

/-- An `ssh.AuthMethod` handle. -/
abbrev AuthMethod := Nat

/-! ## endpoint.go -/

/-- The struct `Endpoint` (endpoint.go, lines 8-12). -/
structure Endpoint where
  Host : String
  Port : Int
  User : String
deriving DecidableEq, Repr

/-- Go standard library, `strconv.Itoa`: the base 10 rendering of an integer,
a minus sign followed by the digits of the magnitude when it is negative. -/
def Itoa (i : Int) : String :=
  if i < 0 then "-" ++ Nat.repr (-i).toNat else Nat.repr i.toNat

/-- Go standard library, `net.JoinHostPort` (net/ipsock.go): the host is taken
for a literal IPv6 address, and bracketed, when it has a colon:
`if bytealg.IndexByteString(host, ':') >= 0 { return "[" + host + "]:" + port }`
and `return host + ":" + port` otherwise. -/
def JoinHostPort (host port : String) : String :=
  if ':' ∈ host.data then "[" ++ host ++ "]:" ++ port else host ++ ":" ++ port

/-- The method `Endpoint.String` (endpoint.go, lines 14-16). -/
def Endpoint.String (endpoint : Endpoint) : String :=
  JoinHostPort endpoint.Host (Itoa endpoint.Port)

/-! ## ssh_tunnel.go: data -/

/-- A `net.Listener` bound by `net.Listen`; `Port` is what
`listener.Addr().(*net.TCPAddr).Port` reads. -/
structure Listener where
  id : Nat
  Port : Int
deriving DecidableEq, Repr

/-- The host key callbacks that the package installs in a client
configuration: the one closure of `NewSSHTunnel`, which returns `nil` for
every key. -/
inductive HostKeyPolicy
  | acceptAny
deriving DecidableEq, Repr

/-- The fields of `ssh.ClientConfig` that `NewSSHTunnel` fills
(ssh_tunnel.go, lines 174-182). -/
structure ClientConfig where
  User : String
  Auth : List AuthMethod
  HostKeyCallback : HostKeyPolicy
deriving DecidableEq, Repr

/-- A value of the interface `logger` (ssh_tunnel.go, lines 10-12). -/
abbrev Logger := Nat

/-- The struct `SSHTunnel` (ssh_tunnel.go, lines 14-25) with its three
`*Endpoint` fields dereferenced: what `forward`, `Serve`, `Close` and the
constructor work on, which read the Endpoints and never write one.  `Listen`
writes through `tunnel.Local` and runs on `TunnelMem`, where the fields are
pointers.  `Log` is `none` for the nil interface.  `close` is the number of
sends offered on the unbuffered channel and not yet received. -/
structure SSHTunnel where
  Local : Endpoint
  Server : Endpoint
  Remote : Endpoint
  Config : ClientConfig
  Log : Option Logger
  Conns : List Conn
  SvrConns : List Client
  MaxConnectionAttempts : Int
  isOpen : Bool
  close : Nat
deriving DecidableEq, Repr

/-- A value of type `*Endpoint`: `none` is nil, `some a` points to the
Endpoint stored at address `a`. -/
abbrev EndpointPtr := Option Nat

/-- The struct `SSHTunnel` (ssh_tunnel.go, lines 14-25) as it lies in memory:
`Local`, `Server` and `Remote` are pointers, and `endpoints` is the store of
the Endpoints they point into.  Two fields that hold the same address share
one Endpoint. -/
structure TunnelMem where
  Local : EndpointPtr
  Server : EndpointPtr
  Remote : EndpointPtr
  Config : ClientConfig
  Log : Option Logger
  Conns : List Conn
  SvrConns : List Client
  MaxConnectionAttempts : Int
  isOpen : Bool
  close : Nat
  endpoints : Nat → Endpoint

/-- An argument handed to `Printf`. -/
inductive LogArg
  | int (i : Int)
  | str (s : String)
  | err (e : Err)
deriving DecidableEq, Repr

/-- The calls that leave the package, and the goroutines it starts. -/
inductive Effect
  /-- The call `tunnel.Log.Printf(fmt, args...)`. -/
  | Printf (log : Logger) (fmt : String) (args : List LogArg)
  /-- The call `net.Listen(network, address)`. -/
  | netListen (network address : String)
  /-- The statement `go newConnectionWaiter(listener, c)`. -/
  | goAccept (listener : Listener)
  /-- The statement `go tunnel.forward(conn)`. -/
  | goForward (conn : Conn)
  /-- The call `ssh.Dial(network, addr, config)`. -/
  | sshDial (network addr : String) (config : ClientConfig)
  /-- The call `serverConn.Dial(network, addr)`. -/
  | clientDial (serverConn : Client) (network addr : String)
  /-- The statement `go copyConn(writer, reader)`. -/
  | goCopy (writer reader : Conn)
  /-- The call `conn.Close()` on an entry of `Conns`. -/
  | connClose (conn : Conn)
  /-- The call `conn.Close()` on an entry of `SvrConns`. -/
  | clientClose (conn : Client)
  /-- The call `listener.Close()`. -/
  | listenerClose (listener : Listener)
deriving DecidableEq, Repr

/-- What a method leaves behind: the values it returns, the tunnel after it,
and the calls it made, in order. -/
structure Result (α : Type) where
  ret : α
  tunnel : SSHTunnel
  trace : List Effect

/-- The same result, reached after the calls `tr`. -/
def Result.after {α : Type} (tr : List Effect) (r : Result α) : Result α :=
  { r with trace := tr ++ r.trace }

/-- What a method that runs on the tunnel in memory leaves behind. -/
structure MemResult (α : Type) where
  ret : α
  tunnel : TunnelMem
  trace : List Effect

/-- What the network answers to one run of `forward`: `sshDial n` is the
outcome of the `n`-th call (from 0) of `ssh.Dial`, `clientDial` the outcome of
`serverConn.Dial`. -/
structure ForwardEnv where
  sshDial : Nat → Except Err Client
  clientDial : Except Err Conn

/-- One firing of the `select` of `Serve` (ssh_tunnel.go, lines 69-77): a value
is received from `tunnel.close`, or the connection waiter delivers `conn`; in
the second case `env` is what the network answers to the forwarder started on
`conn`. -/
inductive SelectOutcome
  | closeSignal
  | accepted (conn : Conn) (env : ForwardEnv)

/-- What the `Close` calls of the drain return: `connClose i conn` for entry
`i` of `Conns`, `clientClose i conn` for entry `i` of `SvrConns`, and
`listenerClose` for the listener; `none` is a nil error. -/
structure DrainEnv where
  connClose : Nat → Conn → Option Err
  clientClose : Nat → Client → Option Err
  listenerClose : Option Err

/-! ## ssh_tunnel.go: methods -/

/-- The method `logf` (ssh_tunnel.go, lines 27-31). -/
def SSHTunnel.logf (tunnel : SSHTunnel) (fmt : String) (args : List LogArg) : List Effect :=
  match tunnel.Log with
  | some log => [Effect.Printf log fmt args]
  | none => []

/-- The tunnel in memory with its three pointers dereferenced; `none` when
one of them is nil. -/
def TunnelMem.read (tunnel : TunnelMem) : Option SSHTunnel :=
  match tunnel.Local, tunnel.Server, tunnel.Remote with
  | some l, some s, some r =>
    some
      { Local := tunnel.endpoints l
        Server := tunnel.endpoints s
        Remote := tunnel.endpoints r
        Config := tunnel.Config
        Log := tunnel.Log
        Conns := tunnel.Conns
        SvrConns := tunnel.SvrConns
        MaxConnectionAttempts := tunnel.MaxConnectionAttempts
        isOpen := tunnel.isOpen
        close := tunnel.close }
  | _, _, _ => none

/-- The tunnel in memory after a method that writes no Endpoint and no pointer
(`forward`, `Serve`, `Close`) has left the fields of `after`. -/
def TunnelMem.write (tunnel : TunnelMem) (after : SSHTunnel) : TunnelMem :=
  { tunnel with
    Config := after.Config
    Log := after.Log
    Conns := after.Conns
    SvrConns := after.SvrConns
    MaxConnectionAttempts := after.MaxConnectionAttempts
    isOpen := after.isOpen
    close := after.close }

/-- A tunnel laid out in memory with an Endpoint of its own behind each
pointer, as `NewSSHTunnel` allocates them (`localEndpoint`, `tunnel`, `remote`:
ssh_tunnel.go, lines 183-185). -/
def SSHTunnel.alloc (tunnel : SSHTunnel) : TunnelMem :=
  { Local := some 0
    Server := some 1
    Remote := some 2
    Config := tunnel.Config
    Log := tunnel.Log
    Conns := tunnel.Conns
    SvrConns := tunnel.SvrConns
    MaxConnectionAttempts := tunnel.MaxConnectionAttempts
    isOpen := tunnel.isOpen
    close := tunnel.close
    endpoints := fun a => if a = 0 then tunnel.Local else if a = 1 then tunnel.Server
      else tunnel.Remote }

/-- The method `Listen` (ssh_tunnel.go, lines 41-49); `netListen` is
`net.Listen`.  `none` is the panic of `tunnel.Local.String()` on a nil `Local`
(the method reads `endpoint.Host` through the pointer).  Line 47 writes the
port into the Endpoint that `Local` points to. -/
def TunnelMem.Listen (netListen : String → String → Except Err Listener) (tunnel : TunnelMem) :
    Option (MemResult (Option Listener × Option Err)) :=
  match tunnel.Local with
  | none => none
  | some a =>
    let tr := [Effect.netListen "tcp" (tunnel.endpoints a).String]
    match netListen "tcp" (tunnel.endpoints a).String with
    | .error err => some ⟨(none, some err), tunnel, tr⟩
    | .ok listener =>
      let tunnel := { tunnel with isOpen := true }
      let tunnel := { tunnel with
        endpoints := Function.update tunnel.endpoints a
          { tunnel.endpoints a with Port := listener.Port } }
      some ⟨(some listener, none), tunnel, tr⟩

/-- The method `Close` (ssh_tunnel.go, lines 151-154): one send is offered on
`tunnel.close`. -/
def SSHTunnel.Close (tunnel : SSHTunnel) : SSHTunnel :=
  { tunnel with close := tunnel.close + 1 }

/-- The method `forward` from line 127 on, once `serverConn` is dialed
(ssh_tunnel.go, lines 127-148).  The two `copyConn` goroutines are started and
not followed. -/
def SSHTunnel.forwardConnected (tunnel : SSHTunnel) (localConn : Conn) (serverConn : Client)
    (clientDial : Except Err Conn) : Result Unit :=
  let tr1 := tunnel.logf "connected to %s (1 of 2)\n" [.str tunnel.Server.String]
  let tunnel := { tunnel with SvrConns := tunnel.SvrConns ++ [serverConn] }
  let tr2 := tunnel.logf "dialing remote %s" [.str tunnel.Remote.String]
    ++ [Effect.clientDial serverConn "tcp" tunnel.Remote.String]
  match clientDial with
  | .error err =>
    ⟨(), tunnel.Close, tr1 ++ tr2 ++ tunnel.logf "remote dial error: %s" [.err err]⟩
  | .ok remoteConn =>
    let tunnel := { tunnel with Conns := tunnel.Conns ++ [remoteConn] }
    ⟨(), tunnel, tr1 ++ tr2 ++ tunnel.logf "connected to %s (2 of 2)\n" [.str tunnel.Remote.String]
      ++ [Effect.goCopy localConn remoteConn, Effect.goCopy remoteConn localConn]⟩

/-- The retry loop of `forward` (ssh_tunnel.go, lines 111-125), entered with
`attemptsLeft` for the `n`-th call of `ssh.Dial`, followed by the rest of the
method.  On every path from `Serve` the counter starts at 1 or more, where the
decrement cannot wrap. -/
def SSHTunnel.forwardLoop (tunnel : SSHTunnel) (localConn : Conn) (env : ForwardEnv)
    (attemptsLeft : Int) (n : Nat) : Result Unit :=
  let tr := tunnel.logf "dialing jump %s" [.str tunnel.Server.String]
    ++ [Effect.sshDial "tcp" tunnel.Server.String tunnel.Config]
  match env.sshDial n with
  | .error err =>
    if h : attemptsLeft - 1 ≤ 0 then
      ⟨(), tunnel.Close, tr ++ tunnel.logf "server dial error: %v: exceeded %d attempts"
        [.err err, .int tunnel.MaxConnectionAttempts]⟩
    else
      (tunnel.forwardLoop localConn env (attemptsLeft - 1) (n + 1)).after tr
  | .ok serverConn =>
    (tunnel.forwardConnected localConn serverConn env.clientDial).after tr
termination_by attemptsLeft.toNat
decreasing_by omega

/-- The method `forward` (ssh_tunnel.go, lines 104-149). -/
def SSHTunnel.forward (tunnel : SSHTunnel) (localConn : Conn) (env : ForwardEnv) : Result Unit :=
  tunnel.forwardLoop localConn env tunnel.MaxConnectionAttempts 0

/-- The accept loop of `Serve` (ssh_tunnel.go, lines 60-78), driven by the
firings of its `select`.  `none`: the tunnel is open and nothing fires any
more, the loop is blocked in the `select`.  Receiving from `tunnel.close` takes
one offered send away; when none is pending, the sender is a caller of `Close`
outside the run, whose send is offered and received at once.  The forwarder
started by `go tunnel.forward(conn)` is run where it is started. -/
def SSHTunnel.acceptLoop (listener : Listener) :
    SSHTunnel → List SelectOutcome → Option (Result Unit)
  | tunnel, events =>
    match tunnel.isOpen, events with
    | false, _ => some ⟨(), tunnel, []⟩
    | true, [] => none
    | true, .closeSignal :: rest =>
      let tr := [Effect.goAccept listener] ++ tunnel.logf "listening for new connections..." []
      let tr2 := tunnel.logf "close signal received, closing..." []
      let tunnel := { tunnel with close := tunnel.close - 1 }
      let tunnel := { tunnel with isOpen := false }
      (SSHTunnel.acceptLoop listener tunnel rest).map (Result.after (tr ++ tr2))
    | true, .accepted conn env :: rest =>
      let tr := [Effect.goAccept listener] ++ tunnel.logf "listening for new connections..." []
      let tunnel := { tunnel with Conns := tunnel.Conns ++ [conn] }
      let tr2 := tunnel.logf "accepted connection" []
      let fwd := tunnel.forward conn env
      (SSHTunnel.acceptLoop listener fwd.tunnel rest).map
        (Result.after (tr ++ tr2 ++ [Effect.goForward conn] ++ fwd.trace))

/-- The first loop of the drain (ssh_tunnel.go, lines 81-87), from index `i`. -/
def SSHTunnel.closeConns (tunnel : SSHTunnel) (env : DrainEnv) (total : Nat) :
    Nat → List Conn → List Effect
  | _, [] => []
  | i, conn :: rest =>
    tunnel.logf "closing the netConn (%d of %d)" [.int (i + 1), .int total]
      ++ [Effect.connClose conn]
      ++ (match env.connClose i conn with
          | some err => tunnel.logf err []
          | none => [])
      ++ SSHTunnel.closeConns tunnel env total (i + 1) rest

/-- The second loop of the drain (ssh_tunnel.go, lines 89-95), from index `i`. -/
def SSHTunnel.closeSvrConns (tunnel : SSHTunnel) (env : DrainEnv) (total : Nat) :
    Nat → List Client → List Effect
  | _, [] => []
  | i, conn :: rest =>
    tunnel.logf "closing the serverConn (%d of %d)" [.int (i + 1), .int total]
      ++ [Effect.clientClose conn]
      ++ (match env.clientClose i conn with
          | some err => tunnel.logf err []
          | none => [])
      ++ SSHTunnel.closeSvrConns tunnel env total (i + 1) rest

/-- The drain of `Serve`, what follows the accept loop (ssh_tunnel.go,
lines 79-102). -/
def SSHTunnel.drain (tunnel : SSHTunnel) (listener : Listener) (env : DrainEnv) :
    Result (Option Err) :=
  let tr1 := tunnel.closeConns env tunnel.Conns.length 0 tunnel.Conns
  let tr2 := tunnel.closeSvrConns env tunnel.SvrConns.length 0 tunnel.SvrConns
  let tr3 := [Effect.listenerClose listener]
  match env.listenerClose with
  | some err => ⟨some err, tunnel, tr1 ++ tr2 ++ tr3⟩
  | none => ⟨none, tunnel, tr1 ++ tr2 ++ tr3 ++ tunnel.logf "tunnel closed" []⟩

/-- The guard at the head of `Serve` (ssh_tunnel.go, lines 56-58). -/
def SSHTunnel.clampAttempts (tunnel : SSHTunnel) : SSHTunnel :=
  if tunnel.MaxConnectionAttempts ≤ 0 then { tunnel with MaxConnectionAttempts := 1 }
  else tunnel

/-- The method `Serve` (ssh_tunnel.go, lines 51-102); `none` when it does not
return. -/
def SSHTunnel.Serve (tunnel : SSHTunnel) (listener : Listener) (events : List SelectOutcome)
    (env : DrainEnv) : Option (Result (Option Err)) :=
  let tunnel := tunnel.clampAttempts
  match tunnel.acceptLoop listener events with
  | none => none
  | some r => some ((r.tunnel.drain listener env).after r.trace)

/-- The function `NewSSHTunnel` (ssh_tunnel.go, lines 158-190).  The fields
that the struct literal leaves out have their zero value. -/
def NewSSHTunnel (tunnel remote : Endpoint) (auth : AuthMethod) (localport : Int) : SSHTunnel :=
  let localEndpoint : Endpoint := { Host := "localhost", Port := localport, User := "" }
  let tunnel := if tunnel.Port = 0 then { tunnel with Port := 22 } else tunnel
  { Config := { User := tunnel.User, Auth := [auth], HostKeyCallback := .acceptAny }
    Local := localEndpoint
    Server := tunnel
    Remote := remote
    close := 0
    Log := none
    Conns := []
    SvrConns := []
    MaxConnectionAttempts := 0
    isOpen := false }

/-! ## Reading traces -/

/-- The number of calls of `ssh.Dial` in a trace. -/
def sshDials (tr : List Effect) : Nat :=
  (tr.filter fun e => match e with | .sshDial _ _ _ => true | _ => false).length

/-- The number of calls of `serverConn.Dial` in a trace. -/
def clientDials (tr : List Effect) : Nat :=
  (tr.filter fun e => match e with | .clientDial _ _ _ => true | _ => false).length

/-- The number of `copyConn` goroutines started in a trace. -/
def relays (tr : List Effect) : Nat :=
  (tr.filter fun e => match e with | .goCopy _ _ => true | _ => false).length

/-- The `Close` calls of a trace, in order. -/
def closeCalls (tr : List Effect) : List Effect :=
  tr.filter fun e =>
    match e with
    | .connClose _ => true
    | .clientClose _ => true
    | .listenerClose _ => true
    | _ => false

/-- The number of forwarders started in a trace. -/
def forwarders (tr : List Effect) : Nat :=
  (tr.filter fun e => match e with | .goForward _ => true | _ => false).length

/-- The calls of one pass through the retry loop of `forward`
(ssh_tunnel.go, lines 112-113). -/
def SSHTunnel.attemptTrace (tunnel : SSHTunnel) : List Effect :=
  tunnel.logf "dialing jump %s" [.str tunnel.Server.String]
    ++ [Effect.sshDial "tcp" tunnel.Server.String tunnel.Config]

/-- The calls of `k` passes through the retry loop. -/
def SSHTunnel.attempts (tunnel : SSHTunnel) : Nat → List Effect
  | 0 => []
  | k + 1 => tunnel.attemptTrace ++ SSHTunnel.attempts tunnel k

/-! ## A concrete tunnel, for the instances below -/

/-- A tunnel to 10.0.0.5:5432 through admin@jump.example.org, local port
chosen at bind time. -/
def exampleTunnel : SSHTunnel :=
  NewSSHTunnel ⟨"jump.example.org", 0, "admin"⟩ ⟨"10.0.0.5", 5432, ""⟩ 1 0

/-- A listener bound to port 40022. -/
def exampleListener : Listener := ⟨1, 40022⟩

/-- A `net.Listen` that binds `exampleListener`. -/
def bindOk : String → String → Except Err Listener := fun _ _ => .ok exampleListener

/-- A `net.Listen` that fails. -/
def bindFails : String → String → Except Err Listener :=
  fun _ _ => .error "address already in use"

/-- The example tunnel after a successful `Listen` that bound
`exampleListener`. -/
def openTunnel : SSHTunnel :=
  { exampleTunnel with isOpen := true, Local := { exampleTunnel.Local with Port := 40022 } }

/-- A tunnel whose fields `Local` and `Server` were set to one and the same
`*Endpoint` (address 0), not open. -/
def sharedTunnel : TunnelMem :=
  { exampleTunnel.alloc with Server := some 0 }

/-- A closed tunnel with one entry in each registry. -/
def closedTunnel : SSHTunnel := { exampleTunnel with Conns := [4], SvrConns := [8] }

/-- The example tunnel with a retry budget of 3. -/
def retryTunnel : SSHTunnel := { exampleTunnel with MaxConnectionAttempts := 3 }

/-- A server that refuses every dial. -/
def refusing : ForwardEnv := ⟨fun _ => .error "connection refused", .error "unreachable"⟩

/-- A server that refuses two dials and accepts the third with client 9,
whose channel to the remote opens as connection 30. -/
def flaky : ForwardEnv :=
  ⟨fun n => if n < 2 then .error "connection refused" else .ok 9, .ok 30⟩

/-- The same server, whose channel to the remote does not open. -/
def flakyNoRemote : ForwardEnv :=
  ⟨fun n => if n < 2 then .error "connection refused" else .ok 9, .error "unreachable"⟩

/-- Every `Close` of the drain succeeds. -/
def quiet : DrainEnv := ⟨fun _ _ => none, fun _ _ => none, none⟩

/-! ## Traces: helper lemmas -/

theorem closeCalls_append (a b : List Effect) :
    closeCalls (a ++ b) = closeCalls a ++ closeCalls b := by
  simp [closeCalls]

theorem closeCalls_logf (tunnel : SSHTunnel) (fmt : String) (args : List LogArg) :
    closeCalls (tunnel.logf fmt args) = [] := by
  unfold SSHTunnel.logf closeCalls
  cases tunnel.Log <;> simp

theorem closeCalls_single_connClose (c : Conn) :
    closeCalls [Effect.connClose c] = [Effect.connClose c] := rfl

theorem closeCalls_single_clientClose (c : Client) :
    closeCalls [Effect.clientClose c] = [Effect.clientClose c] := rfl

theorem closeCalls_single_listenerClose (l : Listener) :
    closeCalls [Effect.listenerClose l] = [Effect.listenerClose l] := rfl

theorem closeCalls_nil : closeCalls [] = [] := rfl

theorem closeCalls_cons_listenerClose (l : Listener) (tr : List Effect) :
    closeCalls (Effect.listenerClose l :: tr) = Effect.listenerClose l :: closeCalls tr := rfl

theorem closeCalls_closeConns (tunnel : SSHTunnel) (env : DrainEnv) (total : Nat)
    (conns : List Conn) :
    ∀ i, closeCalls (tunnel.closeConns env total i conns) = conns.map Effect.connClose := by
  induction conns with
  | nil => intro i; rfl
  | cons c rest ih =>
    intro i
    simp only [SSHTunnel.closeConns, closeCalls_append, closeCalls_logf, ih (i + 1),
      closeCalls_single_connClose]
    cases env.connClose i c <;> simp [closeCalls_logf, closeCalls_nil]

theorem closeCalls_closeSvrConns (tunnel : SSHTunnel) (env : DrainEnv) (total : Nat)
    (conns : List Client) :
    ∀ i, closeCalls (tunnel.closeSvrConns env total i conns) = conns.map Effect.clientClose := by
  induction conns with
  | nil => intro i; rfl
  | cons c rest ih =>
    intro i
    simp only [SSHTunnel.closeSvrConns, closeCalls_append, closeCalls_logf, ih (i + 1),
      closeCalls_single_clientClose]
    cases env.clientClose i c <;> simp [closeCalls_logf, closeCalls_nil]

theorem closeCalls_drain (tunnel : SSHTunnel) (listener : Listener) (env : DrainEnv) :
    closeCalls (tunnel.drain listener env).trace
      = tunnel.Conns.map Effect.connClose ++ tunnel.SvrConns.map Effect.clientClose
        ++ [Effect.listenerClose listener] := by
  unfold SSHTunnel.drain
  cases env.listenerClose <;>
    simp [closeCalls_append, closeCalls_closeConns, closeCalls_closeSvrConns, closeCalls_logf,
      closeCalls_single_listenerClose, closeCalls_cons_listenerClose, closeCalls_nil]

theorem drain_tunnel (tunnel : SSHTunnel) (listener : Listener) (env : DrainEnv) :
    (tunnel.drain listener env).tunnel = tunnel := by
  unfold SSHTunnel.drain
  cases env.listenerClose <;> rfl

theorem drain_ret (tunnel : SSHTunnel) (listener : Listener) (env : DrainEnv) :
    (tunnel.drain listener env).ret = env.listenerClose := by
  unfold SSHTunnel.drain
  cases env.listenerClose <;> rfl

/-! ## Counting calls: helper lemmas -/

theorem sshDials_append (a b : List Effect) : sshDials (a ++ b) = sshDials a + sshDials b := by
  simp [sshDials]

theorem clientDials_append (a b : List Effect) :
    clientDials (a ++ b) = clientDials a + clientDials b := by
  simp [clientDials]

theorem relays_append (a b : List Effect) : relays (a ++ b) = relays a + relays b := by
  simp [relays]

theorem sshDials_logf (tunnel : SSHTunnel) (fmt : String) (args : List LogArg) :
    sshDials (tunnel.logf fmt args) = 0 := by
  unfold SSHTunnel.logf sshDials
  cases tunnel.Log <;> simp

theorem clientDials_logf (tunnel : SSHTunnel) (fmt : String) (args : List LogArg) :
    clientDials (tunnel.logf fmt args) = 0 := by
  unfold SSHTunnel.logf clientDials
  cases tunnel.Log <;> simp

theorem relays_logf (tunnel : SSHTunnel) (fmt : String) (args : List LogArg) :
    relays (tunnel.logf fmt args) = 0 := by
  unfold SSHTunnel.logf relays
  cases tunnel.Log <;> simp

theorem sshDials_attemptTrace (tunnel : SSHTunnel) : sshDials tunnel.attemptTrace = 1 := by
  unfold SSHTunnel.attemptTrace
  rw [sshDials_append, sshDials_logf]
  rfl

theorem clientDials_attemptTrace (tunnel : SSHTunnel) : clientDials tunnel.attemptTrace = 0 := by
  unfold SSHTunnel.attemptTrace
  rw [clientDials_append, clientDials_logf]
  rfl

theorem relays_attemptTrace (tunnel : SSHTunnel) : relays tunnel.attemptTrace = 0 := by
  unfold SSHTunnel.attemptTrace
  rw [relays_append, relays_logf]
  rfl

theorem closeCalls_attemptTrace (tunnel : SSHTunnel) : closeCalls tunnel.attemptTrace = [] := by
  unfold SSHTunnel.attemptTrace
  rw [closeCalls_append, closeCalls_logf]
  rfl

theorem sshDials_attempts (tunnel : SSHTunnel) (k : Nat) : sshDials (tunnel.attempts k) = k := by
  induction k with
  | zero => rfl
  | succ k ih =>
    rw [SSHTunnel.attempts, sshDials_append, sshDials_attemptTrace, ih]
    omega

theorem clientDials_attempts (tunnel : SSHTunnel) (k : Nat) :
    clientDials (tunnel.attempts k) = 0 := by
  induction k with
  | zero => rfl
  | succ k ih => rw [SSHTunnel.attempts, clientDials_append, clientDials_attemptTrace, ih]

theorem relays_attempts (tunnel : SSHTunnel) (k : Nat) : relays (tunnel.attempts k) = 0 := by
  induction k with
  | zero => rfl
  | succ k ih => rw [SSHTunnel.attempts, relays_append, relays_attemptTrace, ih]

theorem closeCalls_attempts (tunnel : SSHTunnel) (k : Nat) :
    closeCalls (tunnel.attempts k) = [] := by
  induction k with
  | zero => rfl
  | succ k ih =>
    rw [SSHTunnel.attempts, closeCalls_append, closeCalls_attemptTrace, ih]
    rfl

/-! ## The retry loop: helper lemmas -/

theorem forwardLoop_ok (tunnel : SSHTunnel) (localConn : Conn) (env : ForwardEnv)
    (attemptsLeft : Int) (n : Nat) (c : Client) (h : env.sshDial n = .ok c) :
    tunnel.forwardLoop localConn env attemptsLeft n
      = (tunnel.forwardConnected localConn c env.clientDial).after tunnel.attemptTrace := by
  rw [SSHTunnel.forwardLoop]
  simp only [h]
  rfl

theorem forwardLoop_exhausted (tunnel : SSHTunnel) (localConn : Conn) (env : ForwardEnv)
    (attemptsLeft : Int) (n : Nat) (err : Err) (h : env.sshDial n = .error err)
    (ha : attemptsLeft - 1 ≤ 0) :
    tunnel.forwardLoop localConn env attemptsLeft n
      = ⟨(), tunnel.Close, tunnel.attemptTrace
          ++ tunnel.logf "server dial error: %v: exceeded %d attempts"
            [.err err, .int tunnel.MaxConnectionAttempts]⟩ := by
  rw [SSHTunnel.forwardLoop]
  simp only [h, ha, dif_pos]
  rfl

theorem forwardLoop_retry (tunnel : SSHTunnel) (localConn : Conn) (env : ForwardEnv)
    (attemptsLeft : Int) (n : Nat) (err : Err) (h : env.sshDial n = .error err)
    (ha : ¬ attemptsLeft - 1 ≤ 0) :
    tunnel.forwardLoop localConn env attemptsLeft n
      = (tunnel.forwardLoop localConn env (attemptsLeft - 1) (n + 1)).after
          tunnel.attemptTrace := by
  rw [SSHTunnel.forwardLoop]
  simp only [h, ha, dif_neg, not_false_eq_true]
  rfl

theorem after_after {α : Type} (a b : List Effect) (r : Result α) :
    (r.after b).after a = r.after (a ++ b) := by
  simp [Result.after]

/-- The retry loop ends at the first success, provided the counter allows the
failures before it. -/
theorem forwardLoop_success (tunnel : SSHTunnel) (localConn : Conn) (env : ForwardEnv)
    (c : Client) :
    ∀ (k : Nat) (attemptsLeft : Int) (n : Nat),
      (k = 0 ∨ (k : Int) < attemptsLeft) →
      (∀ i, i < k → ∃ e, env.sshDial (n + i) = .error e) →
      env.sshDial (n + k) = .ok c →
      tunnel.forwardLoop localConn env attemptsLeft n
        = (tunnel.forwardConnected localConn c env.clientDial).after
            (tunnel.attempts (k + 1)) := by
  intro k
  induction k with
  | zero =>
    intro a n _ _ hok
    rw [forwardLoop_ok tunnel localConn env a n c (by simpa using hok)]
    simp [SSHTunnel.attempts]
  | succ k ih =>
    intro a n hk hfail hok
    obtain ⟨e, he⟩ := hfail 0 (by omega)
    have hka : (k : Int) + 1 < a := by
      rcases hk with hk | hk
      · omega
      · exact_mod_cast hk
    have ha : ¬ a - 1 ≤ 0 := by omega
    rw [forwardLoop_retry tunnel localConn env a n e (by simpa using he) ha]
    rw [ih (a - 1) (n + 1) (Or.inr (by omega))
      (fun i hi => by
        have := hfail (i + 1) (by omega)
        rwa [show n + (i + 1) = n + 1 + i by omega] at this)
      (by rwa [show n + (k + 1) = n + 1 + k by omega] at hok)]
    rw [after_after]
    rfl

/-- The retry loop gives up after `attemptsLeft` failures (after one when the
counter is not positive). -/
theorem forwardLoop_failure (tunnel : SSHTunnel) (localConn : Conn) (env : ForwardEnv) :
    ∀ (m : Nat) (attemptsLeft : Int) (n : Nat),
      attemptsLeft ≤ m + 1 →
      (∀ i, i < m + 1 → (i = 0 ∨ (i : Int) < attemptsLeft) →
        ∃ e, env.sshDial (n + i) = .error e) →
      ∃ err,
        tunnel.forwardLoop localConn env attemptsLeft n
          = ⟨(), tunnel.Close, tunnel.attempts (max attemptsLeft 1).toNat
              ++ tunnel.logf "server dial error: %v: exceeded %d attempts"
                [.err err, .int tunnel.MaxConnectionAttempts]⟩ := by
  intro m
  induction m with
  | zero =>
    intro a n ha hfail
    obtain ⟨e, he⟩ := hfail 0 (by omega) (Or.inl rfl)
    refine ⟨e, ?_⟩
    rw [forwardLoop_exhausted tunnel localConn env a n e (by simpa using he) (by omega)]
    have : (max a 1).toNat = 1 := by omega
    rw [this]
    simp [SSHTunnel.attempts]
  | succ m ih =>
    intro a n ha hfail
    obtain ⟨e, he⟩ := hfail 0 (by omega) (Or.inl rfl)
    by_cases h1 : a - 1 ≤ 0
    · refine ⟨e, ?_⟩
      rw [forwardLoop_exhausted tunnel localConn env a n e (by simpa using he) h1]
      have : (max a 1).toNat = 1 := by omega
      rw [this]
      simp [SSHTunnel.attempts]
    · obtain ⟨err, herr⟩ := ih (a - 1) (n + 1) (by push_cast at ha; omega)
        (fun i hi hia => by
          have hi1 : ((i + 1 : Nat) : Int) < a := by
            rcases hia with hia | hia
            · subst hia; push_cast; omega
            · push_cast; omega
          have := hfail (i + 1) (by omega) (Or.inr hi1)
          rwa [show n + (i + 1) = n + 1 + i by omega] at this)
      refine ⟨err, ?_⟩
      rw [forwardLoop_retry tunnel localConn env a n e (by simpa using he) h1, herr]
      have : (max a 1).toNat = (max (a - 1) 1).toNat + 1 := by omega
      rw [this]
      simp [Result.after, SSHTunnel.attempts]

/-! ## After the server dial: helper lemmas -/

theorem forwardConnected_SvrConns (tunnel : SSHTunnel) (localConn : Conn) (c : Client)
    (clientDial : Except Err Conn) :
    (tunnel.forwardConnected localConn c clientDial).tunnel.SvrConns = tunnel.SvrConns ++ [c] := by
  unfold SSHTunnel.forwardConnected
  cases clientDial <;> rfl

theorem forwardConnected_sshDials (tunnel : SSHTunnel) (localConn : Conn) (c : Client)
    (clientDial : Except Err Conn) :
    sshDials (tunnel.forwardConnected localConn c clientDial).trace = 0 := by
  unfold SSHTunnel.forwardConnected
  cases clientDial <;> simp only [sshDials_append, sshDials_logf] <;> rfl

theorem forwardConnected_clientDials (tunnel : SSHTunnel) (localConn : Conn) (c : Client)
    (clientDial : Except Err Conn) :
    clientDials (tunnel.forwardConnected localConn c clientDial).trace = 1 := by
  unfold SSHTunnel.forwardConnected
  cases clientDial <;> simp only [clientDials_append, clientDials_logf] <;> rfl

theorem forwardConnected_closeCalls (tunnel : SSHTunnel) (localConn : Conn) (c : Client)
    (clientDial : Except Err Conn) :
    closeCalls (tunnel.forwardConnected localConn c clientDial).trace = [] := by
  unfold SSHTunnel.forwardConnected
  cases clientDial <;> simp only [closeCalls_append, closeCalls_logf] <;> rfl

theorem forwardConnected_error (tunnel : SSHTunnel) (localConn : Conn) (c : Client) (err : Err) :
    (tunnel.forwardConnected localConn c (.error err)).tunnel
        = { tunnel with SvrConns := tunnel.SvrConns ++ [c], close := tunnel.close + 1 }
      ∧ relays (tunnel.forwardConnected localConn c (.error err)).trace = 0 := by
  unfold SSHTunnel.forwardConnected
  refine ⟨rfl, ?_⟩
  simp only [relays_append, relays_logf]
  rfl

theorem forwardConnected_ok (tunnel : SSHTunnel) (localConn : Conn) (c : Client) (rc : Conn) :
    (tunnel.forwardConnected localConn c (.ok rc)).tunnel
        = { tunnel with SvrConns := tunnel.SvrConns ++ [c], Conns := tunnel.Conns ++ [rc] }
      ∧ relays (tunnel.forwardConnected localConn c (.ok rc)).trace = 2 := by
  unfold SSHTunnel.forwardConnected
  refine ⟨rfl, ?_⟩
  simp only [relays_append, relays_logf]
  rfl

theorem after_tunnel {α : Type} (tr : List Effect) (r : Result α) :
    (r.after tr).tunnel = r.tunnel := rfl

theorem after_trace {α : Type} (tr : List Effect) (r : Result α) :
    (r.after tr).trace = tr ++ r.trace := rfl

theorem after_ret {α : Type} (tr : List Effect) (r : Result α) :
    (r.after tr).ret = r.ret := rfl

/-! ## The whole of forward: helper lemmas -/

/-- Every run of the retry loop either gives up, having only triggered
`Close`, or goes on from a dialed client. -/
theorem forwardLoop_cases (tunnel : SSHTunnel) (localConn : Conn) (env : ForwardEnv) :
    ∀ (m : Nat) (attemptsLeft : Int) (n : Nat), attemptsLeft.toNat ≤ m →
      (∃ j err, tunnel.forwardLoop localConn env attemptsLeft n
          = ⟨(), tunnel.Close, tunnel.attempts (j + 1)
              ++ tunnel.logf "server dial error: %v: exceeded %d attempts"
                [.err err, .int tunnel.MaxConnectionAttempts]⟩)
        ∨ (∃ k c, tunnel.forwardLoop localConn env attemptsLeft n
          = (tunnel.forwardConnected localConn c env.clientDial).after
              (tunnel.attempts (k + 1))) := by
  intro m
  induction m with
  | zero =>
    intro a n ha
    cases hd : env.sshDial n with
    | error e =>
      left
      refine ⟨0, e, ?_⟩
      rw [forwardLoop_exhausted tunnel localConn env a n e hd (by omega)]
      simp [SSHTunnel.attempts]
    | ok c =>
      right
      refine ⟨0, c, ?_⟩
      rw [forwardLoop_ok tunnel localConn env a n c hd]
      simp [SSHTunnel.attempts]
  | succ m ih =>
    intro a n ha
    cases hd : env.sshDial n with
    | error e =>
      by_cases h1 : a - 1 ≤ 0
      · left
        refine ⟨0, e, ?_⟩
        rw [forwardLoop_exhausted tunnel localConn env a n e hd h1]
        simp [SSHTunnel.attempts]
      · rw [forwardLoop_retry tunnel localConn env a n e hd h1]
        rcases ih (a - 1) (n + 1) (by omega) with ⟨j, err, h⟩ | ⟨k, c, h⟩
        · left
          refine ⟨j + 1, err, ?_⟩
          rw [h]
          simp [Result.after, SSHTunnel.attempts]
        · right
          refine ⟨k + 1, c, ?_⟩
          rw [h, after_after]
          rfl
    | ok c =>
      right
      refine ⟨0, c, ?_⟩
      rw [forwardLoop_ok tunnel localConn env a n c hd]
      simp [SSHTunnel.attempts]

theorem forward_cases (tunnel : SSHTunnel) (localConn : Conn) (env : ForwardEnv) :
    (∃ j err, tunnel.forward localConn env
        = ⟨(), tunnel.Close, tunnel.attempts (j + 1)
            ++ tunnel.logf "server dial error: %v: exceeded %d attempts"
              [.err err, .int tunnel.MaxConnectionAttempts]⟩)
      ∨ (∃ k c, tunnel.forward localConn env
        = (tunnel.forwardConnected localConn c env.clientDial).after
            (tunnel.attempts (k + 1))) :=
  forwardLoop_cases tunnel localConn env _ _ 0 (le_refl _)

theorem forwardConnected_frame (tunnel : SSHTunnel) (localConn : Conn) (c : Client)
    (clientDial : Except Err Conn) :
    (tunnel.forwardConnected localConn c clientDial).tunnel.isOpen = tunnel.isOpen
      ∧ (tunnel.forwardConnected localConn c clientDial).tunnel.MaxConnectionAttempts
          = tunnel.MaxConnectionAttempts
      ∧ tunnel.Conns <+: (tunnel.forwardConnected localConn c clientDial).tunnel.Conns := by
  unfold SSHTunnel.forwardConnected
  cases clientDial
  · exact ⟨rfl, rfl, List.prefix_refl _⟩
  · exact ⟨rfl, rfl, List.prefix_append _ _⟩

/-- What `forward` never touches: the flag, the retry budget, and the entries
already in `Conns`; and it closes nothing. -/
theorem forward_frame (tunnel : SSHTunnel) (localConn : Conn) (env : ForwardEnv) :
    (tunnel.forward localConn env).tunnel.isOpen = tunnel.isOpen
      ∧ (tunnel.forward localConn env).tunnel.MaxConnectionAttempts
          = tunnel.MaxConnectionAttempts
      ∧ tunnel.Conns <+: (tunnel.forward localConn env).tunnel.Conns
      ∧ closeCalls (tunnel.forward localConn env).trace = [] := by
  rcases forward_cases tunnel localConn env with ⟨j, err, h⟩ | ⟨k, c, h⟩
  · rw [h]
    refine ⟨rfl, rfl, List.prefix_refl _, ?_⟩
    simp only [closeCalls_append, closeCalls_attempts, closeCalls_logf]
    rfl
  · rw [h]
    obtain ⟨h1, h2, h3⟩ := forwardConnected_frame tunnel localConn c env.clientDial
    refine ⟨h1, h2, h3, ?_⟩
    simp only [after_trace, closeCalls_append, closeCalls_attempts, forwardConnected_closeCalls]
    rfl

/-- With a retry budget of 1 (or less) `forward` dials the server once. -/
theorem forward_one_attempt (tunnel : SSHTunnel) (localConn : Conn) (env : ForwardEnv)
    (h : tunnel.MaxConnectionAttempts ≤ 1) :
    sshDials (tunnel.forward localConn env).trace = 1 := by
  unfold SSHTunnel.forward
  cases hd : env.sshDial 0 with
  | error e =>
    rw [forwardLoop_exhausted tunnel localConn env _ 0 e hd (by omega)]
    simp only [sshDials_append, sshDials_attemptTrace, sshDials_logf]
  | ok c =>
    rw [forwardLoop_ok tunnel localConn env _ 0 c hd]
    simp only [after_trace, sshDials_append, sshDials_attemptTrace, forwardConnected_sshDials]

/-! ## The accept loop: helper lemmas -/

theorem forwarders_append (a b : List Effect) :
    forwarders (a ++ b) = forwarders a + forwarders b := by
  simp [forwarders]

theorem forwarders_logf (tunnel : SSHTunnel) (fmt : String) (args : List LogArg) :
    forwarders (tunnel.logf fmt args) = 0 := by
  unfold SSHTunnel.logf forwarders
  cases tunnel.Log <;> simp

theorem forwarders_attempts (tunnel : SSHTunnel) (k : Nat) :
    forwarders (tunnel.attempts k) = 0 := by
  induction k with
  | zero => rfl
  | succ k ih =>
    rw [SSHTunnel.attempts, forwarders_append, ih, SSHTunnel.attemptTrace, forwarders_append,
      forwarders_logf]
    rfl

theorem forwarders_forwardConnected (tunnel : SSHTunnel) (localConn : Conn) (c : Client)
    (clientDial : Except Err Conn) :
    forwarders (tunnel.forwardConnected localConn c clientDial).trace = 0 := by
  unfold SSHTunnel.forwardConnected
  cases clientDial <;> simp only [forwarders_append, forwarders_logf] <;> rfl

theorem forwarders_forward (tunnel : SSHTunnel) (localConn : Conn) (env : ForwardEnv) :
    forwarders (tunnel.forward localConn env).trace = 0 := by
  rcases forward_cases tunnel localConn env with ⟨j, err, h⟩ | ⟨k, c, h⟩
  · rw [h]
    simp only [forwarders_append, forwarders_attempts, forwarders_logf]
  · rw [h]
    simp only [after_trace, forwarders_append, forwarders_attempts, forwarders_forwardConnected]

theorem acceptLoop_closed (listener : Listener) (tunnel : SSHTunnel)
    (events : List SelectOutcome) (h : tunnel.isOpen = false) :
    tunnel.acceptLoop listener events = some ⟨(), tunnel, []⟩ := by
  obtain ⟨_, _, _, _, _, _, _, _, o, _⟩ := tunnel
  simp only at h
  subst h
  cases events <;> rfl

theorem acceptLoop_nil (listener : Listener) (tunnel : SSHTunnel) (h : tunnel.isOpen = true) :
    tunnel.acceptLoop listener [] = none := by
  obtain ⟨_, _, _, _, _, _, _, _, o, _⟩ := tunnel
  simp only at h
  subst h
  rfl

theorem acceptLoop_closeSignal (listener : Listener) (tunnel : SSHTunnel)
    (rest : List SelectOutcome) (h : tunnel.isOpen = true) :
    tunnel.acceptLoop listener (.closeSignal :: rest)
      = some ⟨(), { tunnel with close := tunnel.close - 1, isOpen := false },
          [Effect.goAccept listener] ++ tunnel.logf "listening for new connections..." []
            ++ tunnel.logf "close signal received, closing..." []⟩ := by
  have step : tunnel.acceptLoop listener (.closeSignal :: rest)
      = (SSHTunnel.acceptLoop listener
          { tunnel with close := tunnel.close - 1, isOpen := false } rest).map
        (Result.after ([Effect.goAccept listener]
          ++ tunnel.logf "listening for new connections..." []
          ++ tunnel.logf "close signal received, closing..." [])) := by
    obtain ⟨_, _, _, _, _, _, _, _, o, _⟩ := tunnel
    simp only at h
    subst h
    rfl
  rw [step, acceptLoop_closed listener _ rest rfl]
  simp [Result.after]

theorem acceptLoop_accepted (listener : Listener) (tunnel : SSHTunnel) (conn : Conn)
    (env : ForwardEnv) (rest : List SelectOutcome) (h : tunnel.isOpen = true) :
    tunnel.acceptLoop listener (.accepted conn env :: rest)
      = (SSHTunnel.acceptLoop listener
          (SSHTunnel.forward { tunnel with Conns := tunnel.Conns ++ [conn] } conn env).tunnel
          rest).map
        (Result.after ([Effect.goAccept listener]
          ++ tunnel.logf "listening for new connections..." []
          ++ SSHTunnel.logf { tunnel with Conns := tunnel.Conns ++ [conn] }
              "accepted connection" []
          ++ [Effect.goForward conn]
          ++ (SSHTunnel.forward { tunnel with Conns := tunnel.Conns ++ [conn] }
              conn env).trace)) := by
  obtain ⟨_, _, _, _, _, _, _, _, o, _⟩ := tunnel
  simp only at h
  subst h
  rfl

/-- What holds when the accept loop exits. -/
theorem acceptLoop_exit (listener : Listener) :
    ∀ (events : List SelectOutcome) (tunnel : SSHTunnel) (r : Result Unit),
      tunnel.acceptLoop listener events = some r →
      r.tunnel.isOpen = false
        ∧ r.tunnel.MaxConnectionAttempts = tunnel.MaxConnectionAttempts
        ∧ tunnel.Conns <+: r.tunnel.Conns
        ∧ closeCalls r.trace = []
        ∧ (tunnel.MaxConnectionAttempts ≤ 1 → sshDials r.trace = forwarders r.trace)
        ∧ (tunnel.isOpen = true → SelectOutcome.closeSignal ∈ events) := by
  intro events
  induction events with
  | nil =>
    intro tunnel r h
    cases ho : tunnel.isOpen with
    | false =>
      rw [acceptLoop_closed listener tunnel [] ho] at h
      cases h
      exact ⟨ho, rfl, List.prefix_refl _, rfl, fun _ => rfl, by simp⟩
    | true =>
      rw [acceptLoop_nil listener tunnel ho] at h
      cases h
  | cons ev rest ih =>
    intro tunnel r h
    cases ho : tunnel.isOpen with
    | false =>
      rw [acceptLoop_closed listener tunnel _ ho] at h
      cases h
      exact ⟨ho, rfl, List.prefix_refl _, rfl, fun _ => rfl, by simp⟩
    | true =>
      cases ev with
      | closeSignal =>
        rw [acceptLoop_closeSignal listener tunnel rest ho] at h
        cases h
        refine ⟨rfl, rfl, List.prefix_refl _, ?_, fun _ => ?_, fun _ => by simp⟩
        · simp only [closeCalls_append, closeCalls_logf]
          rfl
        · simp only [sshDials_append, sshDials_logf, forwarders_append, forwarders_logf]
          rfl
      | accepted conn env =>
        rw [acceptLoop_accepted listener tunnel conn env rest ho] at h
        cases hr : SSHTunnel.acceptLoop listener
            (SSHTunnel.forward { tunnel with Conns := tunnel.Conns ++ [conn] } conn env).tunnel
            rest with
        | none => rw [hr] at h; cases h
        | some r1 =>
          rw [hr] at h
          simp only [Option.map_some', Option.some.injEq] at h
          subst h
          obtain ⟨f1, f2, f3, f4⟩ :=
            forward_frame { tunnel with Conns := tunnel.Conns ++ [conn] } conn env
          obtain ⟨i1, i2, i3, i4, i5, _⟩ := ih _ r1 hr
          refine ⟨i1, by rw [after_tunnel, i2, f2], ?_, ?_, fun hm => ?_, fun _ => ?_⟩
          · exact (List.prefix_append _ _).trans (f3.trans i3)
          · simp only [after_trace, closeCalls_append, closeCalls_logf, f4, i4]
            rfl
          · have hs := forward_one_attempt { tunnel with Conns := tunnel.Conns ++ [conn] }
              conn env hm
            have hf := forwarders_forward { tunnel with Conns := tunnel.Conns ++ [conn] }
              conn env
            have h5 := i5 (by rw [f2]; exact hm)
            simp only [after_trace, sshDials_append, sshDials_logf, forwarders_append,
              forwarders_logf, hs, hf, h5]
            have e1 : sshDials [Effect.goAccept listener] = 0 := rfl
            have e2 : sshDials [Effect.goForward conn] = 0 := rfl
            have e3 : forwarders [Effect.goAccept listener] = 0 := rfl
            have e4 : forwarders [Effect.goForward conn] = 1 := rfl
            rw [e1, e2, e3, e4]
          · have : SelectOutcome.closeSignal ∈ rest := by
              obtain ⟨_, _, _, _, _, i6⟩ := ih _ r1 hr
              exact i6 (by rw [f1]; exact ho)
            exact List.mem_cons_of_mem _ this

/-- The accept loop exits exactly when the tunnel is not open or a close signal
is among the firings. -/
theorem acceptLoop_returns (listener : Listener) :
    ∀ (events : List SelectOutcome) (tunnel : SSHTunnel),
      (tunnel.isOpen = false ∨ SelectOutcome.closeSignal ∈ events) →
      ∃ r, tunnel.acceptLoop listener events = some r := by
  intro events
  induction events with
  | nil =>
    intro tunnel h
    rcases h with h | h
    · exact ⟨_, acceptLoop_closed listener tunnel [] h⟩
    · simp at h
  | cons ev rest ih =>
    intro tunnel h
    cases ho : tunnel.isOpen with
    | false => exact ⟨_, acceptLoop_closed listener tunnel _ ho⟩
    | true =>
      cases ev with
      | closeSignal => exact ⟨_, acceptLoop_closeSignal listener tunnel rest ho⟩
      | accepted conn env =>
        have hin : SelectOutcome.closeSignal ∈ rest := by
          rcases h with h | h
          · rw [ho] at h; cases h
          · simpa using h
        obtain ⟨r1, hr1⟩ := ih
          (SSHTunnel.forward { tunnel with Conns := tunnel.Conns ++ [conn] } conn env).tunnel
          (Or.inr hin)
        rw [acceptLoop_accepted listener tunnel conn env rest ho, hr1]
        exact ⟨_, rfl⟩

/-! ## Serve: helper lemmas -/

theorem sshDials_closeConns (tunnel : SSHTunnel) (env : DrainEnv) (total : Nat)
    (conns : List Conn) :
    ∀ i, sshDials (tunnel.closeConns env total i conns) = 0
      ∧ forwarders (tunnel.closeConns env total i conns) = 0 := by
  induction conns with
  | nil => intro i; exact ⟨rfl, rfl⟩
  | cons c rest ih =>
    intro i
    simp only [SSHTunnel.closeConns, sshDials_append, sshDials_logf, forwarders_append,
      forwarders_logf, (ih (i + 1)).1, (ih (i + 1)).2]
    cases env.connClose i c
    · exact ⟨rfl, rfl⟩
    · simp only [sshDials_logf, forwarders_logf]
      exact ⟨rfl, rfl⟩

theorem sshDials_closeSvrConns (tunnel : SSHTunnel) (env : DrainEnv) (total : Nat)
    (conns : List Client) :
    ∀ i, sshDials (tunnel.closeSvrConns env total i conns) = 0
      ∧ forwarders (tunnel.closeSvrConns env total i conns) = 0 := by
  induction conns with
  | nil => intro i; exact ⟨rfl, rfl⟩
  | cons c rest ih =>
    intro i
    simp only [SSHTunnel.closeSvrConns, sshDials_append, sshDials_logf, forwarders_append,
      forwarders_logf, (ih (i + 1)).1, (ih (i + 1)).2]
    cases env.clientClose i c
    · exact ⟨rfl, rfl⟩
    · simp only [sshDials_logf, forwarders_logf]
      exact ⟨rfl, rfl⟩

theorem sshDials_drain (tunnel : SSHTunnel) (listener : Listener) (env : DrainEnv) :
    sshDials (tunnel.drain listener env).trace = 0
      ∧ forwarders (tunnel.drain listener env).trace = 0 := by
  unfold SSHTunnel.drain
  cases env.listenerClose <;>
    simp only [sshDials_append, forwarders_append, sshDials_logf, forwarders_logf,
      (sshDials_closeConns tunnel env _ _ 0).1, (sshDials_closeConns tunnel env _ _ 0).2,
      (sshDials_closeSvrConns tunnel env _ _ 0).1, (sshDials_closeSvrConns tunnel env _ _ 0).2] <;>
    exact ⟨rfl, rfl⟩

theorem clampAttempts_frame (tunnel : SSHTunnel) :
    tunnel.clampAttempts.isOpen = tunnel.isOpen
      ∧ tunnel.clampAttempts.Conns = tunnel.Conns
      ∧ tunnel.clampAttempts.SvrConns = tunnel.SvrConns
      ∧ 1 ≤ tunnel.clampAttempts.MaxConnectionAttempts := by
  unfold SSHTunnel.clampAttempts
  split
  · exact ⟨rfl, rfl, rfl, le_refl _⟩
  · exact ⟨rfl, rfl, rfl, by omega⟩

theorem clampAttempts_of_nonpos (tunnel : SSHTunnel) (h : tunnel.MaxConnectionAttempts ≤ 0) :
    tunnel.clampAttempts = { tunnel with MaxConnectionAttempts := 1 } := by
  unfold SSHTunnel.clampAttempts
  rw [if_pos h]

/-- A run of `Serve` that returns is an exit of the accept loop followed by the
drain. -/
theorem Serve_some (tunnel : SSHTunnel) (listener : Listener) (events : List SelectOutcome)
    (env : DrainEnv) (r : Result (Option Err)) (h : tunnel.Serve listener events env = some r) :
    ∃ r1, tunnel.clampAttempts.acceptLoop listener events = some r1
      ∧ r = (r1.tunnel.drain listener env).after r1.trace := by
  unfold SSHTunnel.Serve at h
  cases hl : tunnel.clampAttempts.acceptLoop listener events with
  | none => simp [hl] at h
  | some r1 =>
    simp only [hl, Option.some.injEq] at h
    exact ⟨r1, rfl, h.symm⟩

theorem Serve_of_acceptLoop (tunnel : SSHTunnel) (listener : Listener)
    (events : List SelectOutcome) (env : DrainEnv) (r1 : Result Unit)
    (h : tunnel.clampAttempts.acceptLoop listener events = some r1) :
    tunnel.Serve listener events env = some ((r1.tunnel.drain listener env).after r1.trace) := by
  unfold SSHTunnel.Serve
  simp only [h]

/-- `Serve` returns as soon as the tunnel is not open or a close signal is
among the firings of its select. -/
theorem Serve_returns (tunnel : SSHTunnel) (listener : Listener) (events : List SelectOutcome)
    (env : DrainEnv) (h : tunnel.isOpen = false ∨ SelectOutcome.closeSignal ∈ events) :
    ∃ r, tunnel.Serve listener events env = some r := by
  obtain ⟨r1, hr1⟩ := acceptLoop_returns listener events tunnel.clampAttempts
    (by rw [(clampAttempts_frame tunnel).1]; exact h)
  exact ⟨_, Serve_of_acceptLoop tunnel listener events env r1 hr1⟩

/-- What holds when `Serve` returns. -/
theorem Serve_exit (tunnel : SSHTunnel) (listener : Listener) (events : List SelectOutcome)
    (env : DrainEnv) (r : Result (Option Err)) (h : tunnel.Serve listener events env = some r) :
    r.tunnel.isOpen = false
      ∧ (tunnel.isOpen = true → SelectOutcome.closeSignal ∈ events)
      ∧ r.ret = env.listenerClose
      ∧ tunnel.Conns <+: r.tunnel.Conns
      ∧ closeCalls r.trace
          = r.tunnel.Conns.map Effect.connClose ++ r.tunnel.SvrConns.map Effect.clientClose
            ++ [Effect.listenerClose listener] := by
  obtain ⟨r1, hr1, rfl⟩ := Serve_some tunnel listener events env r h
  obtain ⟨i1, _, i3, i4, _, i6⟩ := acceptLoop_exit listener events _ r1 hr1
  obtain ⟨c1, c2, _, _⟩ := clampAttempts_frame tunnel
  refine ⟨?_, ?_, ?_, ?_, ?_⟩
  · rw [after_tunnel, drain_tunnel]; exact i1
  · intro ho; exact i6 (by rw [c1]; exact ho)
  · rw [after_ret, drain_ret]
  · rw [after_tunnel, drain_tunnel, ← c2]; exact i3
  · rw [after_trace, closeCalls_append, i4, closeCalls_drain, after_tunnel, drain_tunnel]
    rfl

/-- `Serve` on a tunnel that is not open is the drain alone. -/
theorem Serve_closed (tunnel : SSHTunnel) (listener : Listener) (events : List SelectOutcome)
    (env : DrainEnv) (h : tunnel.isOpen = false) :
    tunnel.Serve listener events env = some (tunnel.clampAttempts.drain listener env) := by
  rw [Serve_of_acceptLoop tunnel listener events env _
    (acceptLoop_closed listener _ events (by rw [(clampAttempts_frame tunnel).1]; exact h))]
  rfl

/-- The connection accepted first is in `Conns` when its forwarder ends and
when `Serve` returns, and the drain closes it. -/
theorem Serve_accepted_first (tunnel : SSHTunnel) (listener : Listener) (conn : Conn)
    (fenv : ForwardEnv) (rest : List SelectOutcome) (env : DrainEnv) (r : Result (Option Err))
    (ho : tunnel.isOpen = true)
    (h : tunnel.Serve listener (.accepted conn fenv :: rest) env = some r) :
    conn ∈ (SSHTunnel.forward
        { tunnel.clampAttempts with Conns := tunnel.clampAttempts.Conns ++ [conn] }
        conn fenv).tunnel.Conns
      ∧ conn ∈ r.tunnel.Conns
      ∧ Effect.connClose conn ∈ closeCalls r.trace := by
  obtain ⟨_, _, _, _, h5⟩ := Serve_exit tunnel listener _ env r h
  obtain ⟨r1, hr1, rfl⟩ := Serve_some tunnel listener _ env r h
  rw [acceptLoop_accepted listener _ conn fenv rest
    (by rw [(clampAttempts_frame tunnel).1]; exact ho)] at hr1
  obtain ⟨_, _, f3, _⟩ := forward_frame
    { tunnel.clampAttempts with Conns := tunnel.clampAttempts.Conns ++ [conn] } conn fenv
  have hin : conn ∈ (SSHTunnel.forward
      { tunnel.clampAttempts with Conns := tunnel.clampAttempts.Conns ++ [conn] }
      conn fenv).tunnel.Conns :=
    f3.subset (by simp)
  cases hr : SSHTunnel.acceptLoop listener (SSHTunnel.forward
      { tunnel.clampAttempts with Conns := tunnel.clampAttempts.Conns ++ [conn] }
      conn fenv).tunnel rest with
  | none => rw [hr] at hr1; cases hr1
  | some r2 =>
    rw [hr] at hr1
    simp only [Option.map_some', Option.some.injEq] at hr1
    subst hr1
    obtain ⟨_, _, i3, _, _, _⟩ := acceptLoop_exit listener rest _ r2 hr
    have hin2 : conn ∈ r2.tunnel.Conns := i3.subset hin
    refine ⟨hin, ?_, ?_⟩
    · rw [after_tunnel, drain_tunnel, after_tunnel]; exact hin2
    · rw [h5, after_tunnel, drain_tunnel, after_tunnel]
      simp only [List.mem_append, List.mem_map]
      exact Or.inl (Or.inl ⟨conn, hin2, rfl⟩)

/-! ## Listen: helper lemmas -/

theorem Listen_nil (netListen : String → String → Except Err Listener) (tunnel : TunnelMem)
    (hLocal : tunnel.Local = none) : tunnel.Listen netListen = none := by
  unfold TunnelMem.Listen
  simp only [hLocal]

theorem Listen_error (netListen : String → String → Except Err Listener) (tunnel : TunnelMem)
    (a : Nat) (err : Err) (hLocal : tunnel.Local = some a)
    (hn : netListen "tcp" (tunnel.endpoints a).String = .error err) :
    tunnel.Listen netListen
      = some ⟨(none, some err), tunnel,
          [Effect.netListen "tcp" (tunnel.endpoints a).String]⟩ := by
  unfold TunnelMem.Listen
  simp only [hLocal, hn]

theorem Listen_ok (netListen : String → String → Except Err Listener) (tunnel : TunnelMem)
    (a : Nat) (listener : Listener) (hLocal : tunnel.Local = some a)
    (hn : netListen "tcp" (tunnel.endpoints a).String = .ok listener) :
    tunnel.Listen netListen
      = some ⟨(some listener, none),
          { tunnel with
            isOpen := true
            endpoints := Function.update tunnel.endpoints a
              { tunnel.endpoints a with Port := listener.Port } },
          [Effect.netListen "tcp" (tunnel.endpoints a).String]⟩ := by
  unfold TunnelMem.Listen
  simp only [hLocal, hn]

/-- A tunnel that reads as `t` has its three pointers set. -/
theorem read_some (tunnel : TunnelMem) (t : SSHTunnel) (h : tunnel.read = some t) :
    ∃ l s r, tunnel.Local = some l ∧ tunnel.Server = some s ∧ tunnel.Remote = some r
      ∧ t.Local = tunnel.endpoints l ∧ t.Server = tunnel.endpoints s
      ∧ t.Remote = tunnel.endpoints r ∧ t.isOpen = tunnel.isOpen := by
  unfold TunnelMem.read at h
  cases hL : tunnel.Local with
  | none => simp [hL] at h
  | some l =>
    cases hS : tunnel.Server with
    | none => simp [hL, hS] at h
    | some sv =>
      cases hR : tunnel.Remote with
      | none => simp [hL, hS, hR] at h
      | some rm =>
        simp only [hL, hS, hR, Option.some.injEq] at h
        subst h
        exact ⟨l, sv, rm, rfl, rfl, rfl, rfl, rfl, rfl, rfl⟩

/-! ## The claims -/

/-- C2: the drain of Serve calls Close on every entry of Conns in registry
order, then on every entry of SvrConns in registry order, then on the listener,
each once, whatever the individual calls return; it returns what the close of
the listener returns (its error, or nil) and leaves the tunnel as it was. -/
theorem drain_closes_all_in_order (tunnel : SSHTunnel) (listener : Listener) (env : DrainEnv) :
    closeCalls (tunnel.drain listener env).trace
        = tunnel.Conns.map Effect.connClose ++ tunnel.SvrConns.map Effect.clientClose
          ++ [Effect.listenerClose listener]
      ∧ (tunnel.drain listener env).ret = env.listenerClose
      ∧ (tunnel.drain listener env).tunnel = tunnel :=
  ⟨closeCalls_drain tunnel listener env, drain_ret tunnel listener env,
    drain_tunnel tunnel listener env⟩

/-- C3, the claim as stated fails: in a tunnel whose Local and Server are the
same pointer, a Listen whose bind succeeds on port 40022 changes Server.Port
from 0 to 40022. -/
theorem Listen_writes_shared_Endpoint :
    sharedTunnel.read.map (fun t => t.Server.Port) = some 0
      ∧ ∃ r, sharedTunnel.Listen bindOk = some r
        ∧ r.ret = (some exampleListener, none)
        ∧ r.tunnel.read.map (fun t => t.Server.Port) = some 40022 :=
  ⟨rfl, _, rfl, rfl, rfl⟩

/-- C3, amended: for every tunnel whose Local is not nil, with a the Endpoint
Local points to: when the bind fails, Listen returns the error and no listener
and leaves the tunnel and every Endpoint as they were; when it succeeds with a
listener bound to port p, Listen returns the listener and no error, sets the
flag isOpen and sets the Port of a to p, and changes no other field of the
tunnel, no other field of a, and no Endpoint other than a.  So Server and
Remote are unchanged when they do not point to a, and read the new port when
they do. -/
theorem Listen_bind_outcomes (netListen : String → String → Except Err Listener)
    (tunnel : TunnelMem) (a : Nat) (hLocal : tunnel.Local = some a) :
    match netListen "tcp" (tunnel.endpoints a).String with
    | .error err =>
      ∃ r, tunnel.Listen netListen = some r
        ∧ r.ret = (none, some err)
        ∧ r.tunnel = tunnel
    | .ok listener =>
      ∃ r, tunnel.Listen netListen = some r
        ∧ r.ret = (some listener, none)
        ∧ r.tunnel.isOpen = true
        ∧ (r.tunnel.endpoints a).Port = listener.Port
        ∧ (r.tunnel.endpoints a).Host = (tunnel.endpoints a).Host
        ∧ (r.tunnel.endpoints a).User = (tunnel.endpoints a).User
        ∧ (∀ b, b ≠ a → r.tunnel.endpoints b = tunnel.endpoints b)
        ∧ r.tunnel.Local = tunnel.Local
        ∧ r.tunnel.Server = tunnel.Server
        ∧ r.tunnel.Remote = tunnel.Remote
        ∧ r.tunnel.Config = tunnel.Config
        ∧ r.tunnel.Log = tunnel.Log
        ∧ r.tunnel.Conns = tunnel.Conns
        ∧ r.tunnel.SvrConns = tunnel.SvrConns
        ∧ r.tunnel.MaxConnectionAttempts = tunnel.MaxConnectionAttempts
        ∧ r.tunnel.close = tunnel.close
        ∧ (∀ before after, tunnel.read = some before → r.tunnel.read = some after →
            after.Local = { before.Local with Port := listener.Port }
              ∧ (tunnel.Server ≠ tunnel.Local → after.Server = before.Server)
              ∧ (tunnel.Remote ≠ tunnel.Local → after.Remote = before.Remote)
              ∧ (tunnel.Server = tunnel.Local → after.Server = after.Local)
              ∧ (tunnel.Remote = tunnel.Local → after.Remote = after.Local)) := by
  split
  · next err hn => exact ⟨_, Listen_error netListen tunnel a err hLocal hn, rfl, rfl⟩
  · next listener hn =>
    refine ⟨_, Listen_ok netListen tunnel a listener hLocal hn, rfl, rfl, ?_, ?_, ?_, ?_,
      rfl, rfl, rfl, rfl, rfl, rfl, rfl, rfl, rfl, ?_⟩
    · simp
    · simp
    · simp
    · intro b hb
      simp [Function.update_noteq hb]
    · intro before after hb ha
      obtain ⟨l, sv, rm, hl, hs, hr, e1, e2, e3, _⟩ := read_some tunnel before hb
      obtain ⟨l2, sv2, rm2, hl2, hs2, hr2, f1, f2, f3, _⟩ := read_some _ after ha
      simp only at hl2 hs2 hr2 f1 f2 f3
      have hla : l = a := by rw [hLocal] at hl; exact (Option.some.inj hl).symm
      have hl2a : l2 = a := by rw [hLocal] at hl2; exact (Option.some.inj hl2).symm
      have hsv : sv2 = sv := by rw [hs] at hs2; exact (Option.some.inj hs2).symm
      have hrm : rm2 = rm := by rw [hr] at hr2; exact (Option.some.inj hr2).symm
      rw [hl2a] at f1
      rw [hsv] at f2
      rw [hrm] at f3
      rw [hla] at e1
      refine ⟨?_, ?_, ?_, ?_, ?_⟩
      · rw [f1, e1]; simp
      · intro hne
        have : sv ≠ a := fun h => hne (by rw [hs, hLocal, h])
        rw [f2, e2, Function.update_noteq this]
      · intro hne
        have : rm ≠ a := fun h => hne (by rw [hr, hLocal, h])
        rw [f3, e3, Function.update_noteq this]
      · intro he
        have : sv = a := by rw [hs, hLocal] at he; exact Option.some.inj he
        rw [f2, f1, this]
      · intro he
        have : rm = a := by rw [hr, hLocal] at he; exact Option.some.inj he
        rw [f3, f1, this]

/-- An instance of C3, amended: the tunnel of NewSSHTunnel, each Endpoint in a
cell of its own, and a bind that gives port 40022. -/
theorem Listen_bind_outcomes_witness :
    exampleTunnel.alloc.Local = some 0
      ∧ ∃ r, exampleTunnel.alloc.Listen bindOk = some r
        ∧ r.ret = (some exampleListener, none)
        ∧ r.tunnel.read = some openTunnel :=
  ⟨rfl, by
    have h := Listen_bind_outcomes bindOk exampleTunnel.alloc 0 rfl
    obtain ⟨r, h1, h2, _⟩ := h
    cases h1
    exact ⟨_, rfl, h2, rfl⟩⟩

/-- C5: NewSSHTunnel(s, r, auth, localport) returns a tunnel whose Server.Port
is 22 when s.Port is 0 and s.Port otherwise, whose Server.Host and Server.User
are those of s, whose Remote is r, whose Local is localhost with the port
localport (0 is kept), whose Config.User is s.User, and which is not open:
the flag isOpen is false and both registries are empty. -/
theorem NewSSHTunnel_defaults (s r : Endpoint) (auth : AuthMethod) (localport : Int) :
    (NewSSHTunnel s r auth localport).Server.Port = (if s.Port = 0 then 22 else s.Port)
      ∧ (NewSSHTunnel s r auth localport).Server.Host = s.Host
      ∧ (NewSSHTunnel s r auth localport).Server.User = s.User
      ∧ (NewSSHTunnel s r auth localport).Remote = r
      ∧ (NewSSHTunnel s r auth localport).Local
          = { Host := "localhost", Port := localport, User := "" }
      ∧ (NewSSHTunnel s r auth localport).Config.User = s.User
      ∧ (NewSSHTunnel s r auth localport).isOpen = false
      ∧ (NewSSHTunnel s r auth localport).Conns = []
      ∧ (NewSSHTunnel s r auth localport).SvrConns = [] := by
  unfold NewSSHTunnel
  by_cases h : s.Port = 0 <;> simp [h]

/-- C6, the claim as stated fails: the host a%b has a percent sign and no
colon, and String renders it without brackets. -/
theorem String_percent_host_not_bracketed :
    '%' ∈ "a%b".data
      ∧ Endpoint.String ⟨"a%b", 22, ""⟩ = "a%b:22"
      ∧ Endpoint.String ⟨"a%b", 22, ""⟩ ≠ "[" ++ "a%b" ++ "]" ++ ":" ++ Nat.repr 22 := by
  decide

theorem Itoa_nonneg (i : Int) (h : 0 ≤ i) : Itoa i = Nat.repr i.toNat := by
  unfold Itoa
  rw [if_neg (by omega)]

/-- C6, amended: for every Endpoint with Port >= 0, String returns Host, then
a colon, then the decimal rendering of Port, with Host in square brackets
exactly when it contains a colon; User does not affect the result; localhost
with port 4022 renders as localhost:4022 and ::1 with port 22 as [::1]:22. -/
theorem String_renders_host_port (endpoint : Endpoint) (h : 0 ≤ endpoint.Port) :
    endpoint.String
        = (if ':' ∈ endpoint.Host.data then "[" ++ endpoint.Host ++ "]" else endpoint.Host)
          ++ ":" ++ Nat.repr endpoint.Port.toNat
      ∧ (∀ user : String, Endpoint.String { endpoint with User := user } = endpoint.String)
      ∧ Endpoint.String ⟨"localhost", 4022, ""⟩ = "localhost:4022"
      ∧ Endpoint.String ⟨"::1", 22, ""⟩ = "[::1]:22" := by
  refine ⟨?_, fun _ => rfl, by decide, by decide⟩
  unfold Endpoint.String JoinHostPort
  rw [Itoa_nonneg _ h]
  by_cases hc : ':' ∈ endpoint.Host.data
  · simp only [hc, if_true]
    have : "]:" = "]" ++ ":" := by decide
    rw [this]
    simp only [String.append_assoc]
  · simp only [hc, if_false]

/-- An instance of C6, amended: the host ::1 with port 22 and user root. -/
theorem String_renders_host_port_witness :
    (0 : Int) ≤ (Endpoint.mk "::1" 22 "root").Port
      ∧ Endpoint.String ⟨"::1", 22, "root"⟩
          = (if ':' ∈ "::1".data then "[" ++ "::1" ++ "]" else "::1") ++ ":" ++ Nat.repr 22 :=
  ⟨by decide, (String_renders_host_port ⟨"::1", 22, "root"⟩ (by decide)).1⟩

/-- C1: with N = MaxConnectionAttempts >= 1 and the outcomes of the successive
server dials given as a sequence: when the first success comes after k < N
failures, forward makes exactly k+1 dial attempts and appends the obtained
client handle to SvrConns; when each of the first N attempts fails, forward
makes exactly N attempts, triggers Close once and returns with SvrConns and
Conns as they were. -/
theorem forward_dial_with_retry (tunnel : SSHTunnel) (localConn : Conn) (env : ForwardEnv)
    (hN : 1 ≤ tunnel.MaxConnectionAttempts) :
    (∀ (k : Nat) (c : Client), (k : Int) < tunnel.MaxConnectionAttempts →
        (∀ i, i < k → ∃ e, env.sshDial i = .error e) → env.sshDial k = .ok c →
        sshDials (tunnel.forward localConn env).trace = k + 1
          ∧ (tunnel.forward localConn env).tunnel.SvrConns = tunnel.SvrConns ++ [c])
      ∧ ((∀ i : Nat, (i : Int) < tunnel.MaxConnectionAttempts → ∃ e, env.sshDial i = .error e) →
        (sshDials (tunnel.forward localConn env).trace : Int) = tunnel.MaxConnectionAttempts
          ∧ (tunnel.forward localConn env).tunnel.close = tunnel.close + 1
          ∧ (tunnel.forward localConn env).tunnel.SvrConns = tunnel.SvrConns
          ∧ (tunnel.forward localConn env).tunnel.Conns = tunnel.Conns) := by
  constructor
  · intro k c hk hfail hok
    have h := forwardLoop_success tunnel localConn env c k tunnel.MaxConnectionAttempts 0
      (Or.inr hk) (fun i hi => by simpa using hfail i hi) (by simpa using hok)
    unfold SSHTunnel.forward
    rw [h, after_trace, after_tunnel, sshDials_append, sshDials_attempts,
      forwardConnected_sshDials, forwardConnected_SvrConns]
    exact ⟨rfl, rfl⟩
  · intro hfail
    obtain ⟨err, h⟩ := forwardLoop_failure tunnel localConn env
      (tunnel.MaxConnectionAttempts.toNat - 1) tunnel.MaxConnectionAttempts 0 (by omega)
      (fun i _ hia => by
        have : (i : Int) < tunnel.MaxConnectionAttempts := by
          rcases hia with hia | hia
          · subst hia; push_cast; omega
          · exact hia
        simpa using hfail i this)
    unfold SSHTunnel.forward
    rw [h]
    refine ⟨?_, rfl, rfl, rfl⟩
    simp only [sshDials_append, sshDials_attempts, sshDials_logf]
    omega

/-- C7: in a run of forward whose server dial succeeds (after k failures that
the retry loop allows) with the client handle c: when the channel open to
Remote fails, forward makes exactly one channel-open attempt, triggers Close
exactly once, appends nothing to Conns, starts no relay, and c is the entry
appended to SvrConns; when the channel open succeeds, the connection obtained
is appended to Conns and Close is not triggered. -/
theorem forward_channel_open (tunnel : SSHTunnel) (localConn : Conn) (env : ForwardEnv)
    (k : Nat) (c : Client) (hk : k = 0 ∨ (k : Int) < tunnel.MaxConnectionAttempts)
    (hfail : ∀ i, i < k → ∃ e, env.sshDial i = .error e) (hok : env.sshDial k = .ok c) :
    (∀ err, env.clientDial = .error err →
        clientDials (tunnel.forward localConn env).trace = 1
          ∧ (tunnel.forward localConn env).tunnel.close = tunnel.close + 1
          ∧ (tunnel.forward localConn env).tunnel.Conns = tunnel.Conns
          ∧ relays (tunnel.forward localConn env).trace = 0
          ∧ (tunnel.forward localConn env).tunnel.SvrConns = tunnel.SvrConns ++ [c])
      ∧ (∀ remoteConn, env.clientDial = .ok remoteConn →
        clientDials (tunnel.forward localConn env).trace = 1
          ∧ (tunnel.forward localConn env).tunnel.Conns = tunnel.Conns ++ [remoteConn]
          ∧ (tunnel.forward localConn env).tunnel.close = tunnel.close
          ∧ (tunnel.forward localConn env).tunnel.SvrConns = tunnel.SvrConns ++ [c]) := by
  have h := forwardLoop_success tunnel localConn env c k tunnel.MaxConnectionAttempts 0
    hk (fun i hi => by simpa using hfail i hi) (by simpa using hok)
  unfold SSHTunnel.forward
  rw [h]
  simp only [after_trace, after_tunnel, clientDials_append, clientDials_attempts,
    relays_append, relays_attempts, forwardConnected_clientDials]
  constructor
  · intro err herr
    rw [herr, (forwardConnected_error tunnel localConn c err).1,
      (forwardConnected_error tunnel localConn c err).2]
    simp
  · intro rc hrc
    rw [hrc, (forwardConnected_ok tunnel localConn c rc).1]
    simp

/-- An instance of C1: a budget of 3, against a server that accepts the third
dial and against one that refuses every dial. -/
theorem forward_dial_with_retry_witness :
    1 ≤ retryTunnel.MaxConnectionAttempts
      ∧ sshDials (retryTunnel.forward 7 flaky).trace = 2 + 1
      ∧ (retryTunnel.forward 7 flaky).tunnel.SvrConns = retryTunnel.SvrConns ++ [9]
      ∧ (sshDials (retryTunnel.forward 7 refusing).trace : Int)
          = retryTunnel.MaxConnectionAttempts
      ∧ (retryTunnel.forward 7 refusing).tunnel.close = retryTunnel.close + 1 :=
  ⟨by decide,
    ((forward_dial_with_retry retryTunnel 7 flaky (by decide)).1 2 9 (by decide)
      (fun i hi => ⟨"connection refused", by simp [flaky, hi]⟩) rfl).1,
    ((forward_dial_with_retry retryTunnel 7 flaky (by decide)).1 2 9 (by decide)
      (fun i hi => ⟨"connection refused", by simp [flaky, hi]⟩) rfl).2,
    ((forward_dial_with_retry retryTunnel 7 refusing (by decide)).2
      (fun _ _ => ⟨"connection refused", rfl⟩)).1,
    ((forward_dial_with_retry retryTunnel 7 refusing (by decide)).2
      (fun _ _ => ⟨"connection refused", rfl⟩)).2.1⟩

/-- An instance of C7: the third dial gives client 9, and the channel to the
remote does not open, or opens as connection 30. -/
theorem forward_channel_open_witness :
    ((2 : Nat) : Int) < retryTunnel.MaxConnectionAttempts
      ∧ flakyNoRemote.sshDial 2 = .ok 9
      ∧ clientDials (retryTunnel.forward 7 flakyNoRemote).trace = 1
      ∧ (retryTunnel.forward 7 flakyNoRemote).tunnel.close = retryTunnel.close + 1
      ∧ (retryTunnel.forward 7 flakyNoRemote).tunnel.Conns = retryTunnel.Conns
      ∧ (retryTunnel.forward 7 flaky).tunnel.Conns = retryTunnel.Conns ++ [30] :=
  ⟨by decide, rfl,
    ((forward_channel_open retryTunnel 7 flakyNoRemote 2 9 (Or.inr (by decide))
      (fun i hi => ⟨"connection refused", by simp [flakyNoRemote, hi]⟩) rfl).1
      "unreachable" rfl).1,
    ((forward_channel_open retryTunnel 7 flakyNoRemote 2 9 (Or.inr (by decide))
      (fun i hi => ⟨"connection refused", by simp [flakyNoRemote, hi]⟩) rfl).1
      "unreachable" rfl).2.1,
    ((forward_channel_open retryTunnel 7 flakyNoRemote 2 9 (Or.inr (by decide))
      (fun i hi => ⟨"connection refused", by simp [flakyNoRemote, hi]⟩) rfl).1
      "unreachable" rfl).2.2.1,
    ((forward_channel_open retryTunnel 7 flaky 2 9 (Or.inr (by decide))
      (fun i hi => ⟨"connection refused", by simp [flaky, hi]⟩) rfl).2 30 rfl).2.1⟩

/-- C4: for a tunnel with MaxConnectionAttempts <= 0, and every sequence of
accept, dial and close outcomes, Serve gives the same result (return value,
tunnel with its registries and close signals, calls made) as on the same tunnel
with MaxConnectionAttempts = 1; Serve rewrites the field to 1 before the accept
loop, the field is 1 when Serve returns, every forwarder that reads this budget
makes exactly one server dial attempt, and the run has as many server dials as
forwarders. -/
theorem Serve_nonpositive_attempts_as_one (tunnel : SSHTunnel) (listener : Listener)
    (events : List SelectOutcome) (env : DrainEnv) (h : tunnel.MaxConnectionAttempts ≤ 0) :
    tunnel.Serve listener events env
        = SSHTunnel.Serve { tunnel with MaxConnectionAttempts := 1 } listener events env
      ∧ tunnel.clampAttempts = { tunnel with MaxConnectionAttempts := 1 }
      ∧ (∀ r, tunnel.Serve listener events env = some r →
          r.tunnel.MaxConnectionAttempts = 1 ∧ sshDials r.trace = forwarders r.trace)
      ∧ (∀ (started : SSHTunnel) (conn : Conn) (fenv : ForwardEnv),
          started.MaxConnectionAttempts = tunnel.clampAttempts.MaxConnectionAttempts →
          sshDials (started.forward conn fenv).trace = 1) := by
  have hc := clampAttempts_of_nonpos tunnel h
  refine ⟨?_, hc, ?_, ?_⟩
  · have h1 : SSHTunnel.clampAttempts { tunnel with MaxConnectionAttempts := 1 }
        = { tunnel with MaxConnectionAttempts := 1 } := by
      unfold SSHTunnel.clampAttempts
      rw [if_neg (by simp)]
    unfold SSHTunnel.Serve
    rw [hc, h1]
  · intro r hr
    obtain ⟨r1, hr1, rfl⟩ := Serve_some tunnel listener events env r hr
    obtain ⟨_, i2, _, _, i5, _⟩ := acceptLoop_exit listener events _ r1 hr1
    have hm : tunnel.clampAttempts.MaxConnectionAttempts = 1 := by rw [hc]
    refine ⟨by rw [after_tunnel, drain_tunnel, i2, hm], ?_⟩
    rw [after_trace, sshDials_append, forwarders_append, i5 (by omega),
      (sshDials_drain r1.tunnel listener env).1, (sshDials_drain r1.tunnel listener env).2]
  · intro started conn fenv hs
    have hm : tunnel.clampAttempts.MaxConnectionAttempts = 1 := by rw [hc]
    exact forward_one_attempt started conn fenv (by omega)

/-- An instance of C4: the tunnel of NewSSHTunnel, whose budget is 0, serving
one connection and then a close signal. -/
theorem Serve_nonpositive_attempts_as_one_witness :
    openTunnel.MaxConnectionAttempts ≤ 0
      ∧ openTunnel.Serve exampleListener [.accepted 7 flaky, .closeSignal] quiet
          = SSHTunnel.Serve { openTunnel with MaxConnectionAttempts := 1 } exampleListener
              [.accepted 7 flaky, .closeSignal] quiet :=
  ⟨by decide,
    (Serve_nonpositive_attempts_as_one openTunnel exampleListener
      [.accepted 7 flaky, .closeSignal] quiet (by decide)).1⟩

/-- C8, the claim as stated fails: a second Serve on the closed tunnel runs the
drain again, and over both runs Close is invoked twice on the entry 4 of Conns
and twice on the entry 8 of SvrConns. -/
theorem second_drain_closes_again :
    ∃ r1 r2, closedTunnel.Serve exampleListener [] quiet = some r1
      ∧ r1.tunnel.Serve exampleListener [] quiet = some r2
      ∧ (closeCalls (r1.trace ++ r2.trace)).count (Effect.connClose 4) = 2
      ∧ (closeCalls (r1.trace ++ r2.trace)).count (Effect.clientClose 8) = 2 :=
  ⟨_, _, rfl, rfl, by decide, by decide⟩

/-- C8, amended: one run of the drain invokes Close exactly once on every entry
of Conns and of SvrConns (and on the listener) and leaves both registries as
they were; the drain does not record that an entry is closed, so a second run
(a second Serve call once the open flag is false) invokes Close on every
entry again: over both runs, exactly twice. -/
theorem drain_twice_closes_twice (tunnel : SSHTunnel) (listener : Listener)
    (env1 env2 : DrainEnv) :
    closeCalls (tunnel.drain listener env1).trace
        = tunnel.Conns.map Effect.connClose ++ tunnel.SvrConns.map Effect.clientClose
          ++ [Effect.listenerClose listener]
      ∧ (tunnel.drain listener env1).tunnel.Conns = tunnel.Conns
      ∧ (tunnel.drain listener env1).tunnel.SvrConns = tunnel.SvrConns
      ∧ closeCalls ((tunnel.drain listener env1).trace
            ++ ((tunnel.drain listener env1).tunnel.drain listener env2).trace)
          = (tunnel.Conns.map Effect.connClose ++ tunnel.SvrConns.map Effect.clientClose
              ++ [Effect.listenerClose listener])
            ++ (tunnel.Conns.map Effect.connClose ++ tunnel.SvrConns.map Effect.clientClose
              ++ [Effect.listenerClose listener])
      ∧ (tunnel.isOpen = false →
          ∀ (events1 events2 : List SelectOutcome) (r1 r2 : Result (Option Err)),
            tunnel.Serve listener events1 env1 = some r1 →
            r1.tunnel.Serve listener events2 env2 = some r2 →
            closeCalls (r1.trace ++ r2.trace)
              = (tunnel.Conns.map Effect.connClose ++ tunnel.SvrConns.map Effect.clientClose
                  ++ [Effect.listenerClose listener])
                ++ (tunnel.Conns.map Effect.connClose ++ tunnel.SvrConns.map Effect.clientClose
                  ++ [Effect.listenerClose listener])) := by
  refine ⟨closeCalls_drain _ _ _, by rw [drain_tunnel], by rw [drain_tunnel], ?_, ?_⟩
  · rw [closeCalls_append, closeCalls_drain, closeCalls_drain, drain_tunnel]
  · intro hc events1 events2 r1 r2 h1 h2
    obtain ⟨c1, c2, c3, _⟩ := clampAttempts_frame tunnel
    rw [Serve_closed tunnel listener events1 env1 hc] at h1
    simp only [Option.some.injEq] at h1
    subst h1
    have hc2 : (tunnel.clampAttempts.drain listener env1).tunnel.isOpen = false := by
      rw [drain_tunnel, c1]; exact hc
    rw [Serve_closed _ listener events2 env2 hc2] at h2
    simp only [Option.some.injEq] at h2
    subst h2
    obtain ⟨d1, d2, d3, _⟩ := clampAttempts_frame (tunnel.clampAttempts.drain listener env1).tunnel
    rw [closeCalls_append, closeCalls_drain, closeCalls_drain, d2, d3, drain_tunnel, c2, c3]

/-- An instance of C8, amended: two Serve calls on a closed tunnel with one
entry in each registry. -/
theorem drain_twice_closes_twice_witness :
    closedTunnel.isOpen = false
      ∧ ∃ r1 r2, closedTunnel.Serve exampleListener [] quiet = some r1
        ∧ r1.tunnel.Serve exampleListener [] quiet = some r2
        ∧ closeCalls (r1.trace ++ r2.trace)
          = (closedTunnel.Conns.map Effect.connClose
              ++ closedTunnel.SvrConns.map Effect.clientClose
              ++ [Effect.listenerClose exampleListener])
            ++ (closedTunnel.Conns.map Effect.connClose
              ++ closedTunnel.SvrConns.map Effect.clientClose
              ++ [Effect.listenerClose exampleListener]) :=
  ⟨rfl, _, _, rfl, rfl,
    (drain_twice_closes_twice closedTunnel exampleListener quiet quiet).2.2.2.2 rfl
      [] [] _ _ rfl rfl⟩

/-- C9, the claim as stated fails: the tunnel of NewSSHTunnel is opened by
Listen, Serve returns on a close signal with the flag false, and a second
Listen whose bind succeeds makes the tunnel open again. -/
theorem Listen_reopens_closed_tunnel :
    ∃ r0 r r2, exampleTunnel.alloc.Listen bindOk = some r0
      ∧ r0.tunnel.read = some openTunnel
      ∧ openTunnel.Serve exampleListener [.closeSignal] quiet = some r
      ∧ r.tunnel.isOpen = false
      ∧ (r0.tunnel.write r.tunnel).read = some r.tunnel
      ∧ (r0.tunnel.write r.tunnel).Listen bindOk = some r2
      ∧ r2.tunnel.isOpen = true :=
  ⟨_, _, _, rfl, rfl, rfl, rfl, rfl, rfl, rfl⟩

/-- C9, amended: Serve returns only in a state where the open flag is false,
and when it was entered with the flag true, only after a close signal has been
received; it does return as soon as the flag is false or a close signal is
among the firings of its select.  From a state where the flag is false, neither
Close nor Serve makes the tunnel open again; Listen, on the tunnel in memory,
makes it open again exactly when its bind succeeds. -/
theorem Serve_returns_closed (tunnel : SSHTunnel) (listener : Listener)
    (events : List SelectOutcome) (env : DrainEnv) :
    (∀ r, tunnel.Serve listener events env = some r →
        r.tunnel.isOpen = false
          ∧ (tunnel.isOpen = true → SelectOutcome.closeSignal ∈ events))
      ∧ ((tunnel.isOpen = false ∨ SelectOutcome.closeSignal ∈ events) →
          ∃ r, tunnel.Serve listener events env = some r)
      ∧ (tunnel.isOpen = false →
          tunnel.Close.isOpen = false
            ∧ (∃ r, tunnel.Serve listener events env = some r ∧ r.tunnel.isOpen = false)
            ∧ ∀ (mem : TunnelMem) (netListen : String → String → Except Err Listener),
                mem.read = some tunnel →
                ∃ r, mem.Listen netListen = some r
                  ∧ (r.tunnel.isOpen = true
                    ↔ ∃ bound, netListen "tcp" tunnel.Local.String = .ok bound)) := by
  refine ⟨fun r hr => ?_, Serve_returns tunnel listener events env, fun hc => ⟨hc, ?_, ?_⟩⟩
  · obtain ⟨h1, h2, _⟩ := Serve_exit tunnel listener events env r hr
    exact ⟨h1, h2⟩
  · obtain ⟨r, hr⟩ := Serve_returns tunnel listener events env (Or.inl hc)
    exact ⟨r, hr, (Serve_exit tunnel listener events env r hr).1⟩
  · intro mem netListen hm
    obtain ⟨l, _, _, hl, _, _, e1, _, _, e4⟩ := read_some mem tunnel hm
    rw [e1]
    cases hn : netListen "tcp" (mem.endpoints l).String with
    | error e =>
      refine ⟨_, Listen_error netListen mem l e hl hn, ?_⟩
      simp only [← e4, hc]
      simp
    | ok bound =>
      refine ⟨_, Listen_ok netListen mem l bound hl hn, ?_⟩
      simp

/-- An instance of C9, amended: a closed tunnel under Close, Serve and a
Listen whose bind fails, and an open tunnel that receives a close signal. -/
theorem Serve_returns_closed_witness :
    closedTunnel.isOpen = false
      ∧ closedTunnel.Close.isOpen = false
      ∧ (∃ r, closedTunnel.Serve exampleListener [] quiet = some r ∧ r.tunnel.isOpen = false)
      ∧ (∃ r, closedTunnel.alloc.Listen bindFails = some r
          ∧ (r.tunnel.isOpen = true
            ↔ ∃ bound, bindFails "tcp" closedTunnel.Local.String = .ok bound))
      ∧ ∃ r, openTunnel.Serve exampleListener [.closeSignal] quiet = some r :=
  ⟨rfl,
    ((Serve_returns_closed closedTunnel exampleListener [] quiet).2.2 rfl).1,
    ((Serve_returns_closed closedTunnel exampleListener [] quiet).2.2 rfl).2.1,
    ((Serve_returns_closed closedTunnel exampleListener [] quiet).2.2 rfl).2.2
      closedTunnel.alloc bindFails rfl,
    (Serve_returns_closed openTunnel exampleListener [.closeSignal] quiet).2.1
      (Or.inr (List.mem_cons_self _ _))⟩

/-- C10, the claim as stated fails: the connection 7 is accepted, its forwarder
exhausts its server dial attempts, and 7 is an entry of Conns when the
forwarder terminates and when Serve returns, and the drain closes it. -/
theorem accepted_conn_registered_and_closed :
    (∀ i : Nat, ∃ e, refusing.sshDial i = .error e)
      ∧ 7 ∈ (SSHTunnel.forward
          { openTunnel.clampAttempts with Conns := openTunnel.clampAttempts.Conns ++ [7] }
          7 refusing).tunnel.Conns
      ∧ ∃ r, openTunnel.Serve exampleListener [.accepted 7 refusing, .closeSignal] quiet = some r
        ∧ 7 ∈ r.tunnel.Conns
        ∧ Effect.connClose 7 ∈ closeCalls r.trace := by
  obtain ⟨r, hr⟩ := Serve_returns openTunnel exampleListener
    [.accepted 7 refusing, .closeSignal] quiet (Or.inr (by simp))
  obtain ⟨h1, h2, h3⟩ := Serve_accepted_first openTunnel exampleListener 7 refusing
    [.closeSignal] quiet r rfl hr
  exact ⟨fun _ => ⟨"connection refused", rfl⟩, h1, r, hr, h2, h3⟩

/-- C10, amended: for every accepted local connection whose forwarder exhausts
its server dial attempts, the forwarder closes nothing, so not that local
connection; the accept loop registered the connection before it started the
forwarder, so it is the last entry of Conns when the forwarder terminates, it
is still an entry when Serve returns, and the drain closes it. -/
theorem exhausted_forwarder_leaves_conn_registered (tunnel : SSHTunnel) (listener : Listener)
    (conn : Conn) (fenv : ForwardEnv) (rest : List SelectOutcome) (env : DrainEnv)
    (ho : tunnel.isOpen = true)
    (hfail : ∀ i : Nat, (i : Int) < tunnel.clampAttempts.MaxConnectionAttempts →
      ∃ e, fenv.sshDial i = .error e) :
    closeCalls (SSHTunnel.forward
        { tunnel.clampAttempts with Conns := tunnel.clampAttempts.Conns ++ [conn] }
        conn fenv).trace = []
      ∧ (SSHTunnel.forward
          { tunnel.clampAttempts with Conns := tunnel.clampAttempts.Conns ++ [conn] }
          conn fenv).tunnel.Conns = tunnel.Conns ++ [conn]
      ∧ ∀ r, tunnel.Serve listener (.accepted conn fenv :: rest) env = some r →
          conn ∈ r.tunnel.Conns ∧ Effect.connClose conn ∈ closeCalls r.trace := by
  obtain ⟨_, c2, _, c4⟩ := clampAttempts_frame tunnel
  refine ⟨(forward_frame _ conn fenv).2.2.2, ?_, fun r hr => ?_⟩
  · obtain ⟨err, h⟩ := forwardLoop_failure
      { tunnel.clampAttempts with Conns := tunnel.clampAttempts.Conns ++ [conn] } conn fenv
      (tunnel.clampAttempts.MaxConnectionAttempts.toNat - 1)
      tunnel.clampAttempts.MaxConnectionAttempts 0 (by omega)
      (fun i _ hia => by
        have : (i : Int) < tunnel.clampAttempts.MaxConnectionAttempts := by
          rcases hia with hia | hia
          · subst hia; push_cast; omega
          · exact hia
        simpa using hfail i this)
    unfold SSHTunnel.forward
    rw [h]
    show tunnel.clampAttempts.Conns ++ [conn] = tunnel.Conns ++ [conn]
    rw [c2]
  · exact (Serve_accepted_first tunnel listener conn fenv rest env r ho hr).2

/-- An instance of C10, amended: connection 7 accepted by an open tunnel,
every server dial refused. -/
theorem exhausted_forwarder_leaves_conn_registered_witness :
    openTunnel.isOpen = true
      ∧ closeCalls (SSHTunnel.forward
          { openTunnel.clampAttempts with Conns := openTunnel.clampAttempts.Conns ++ [7] }
          7 refusing).trace = []
      ∧ (SSHTunnel.forward
          { openTunnel.clampAttempts with Conns := openTunnel.clampAttempts.Conns ++ [7] }
          7 refusing).tunnel.Conns = openTunnel.Conns ++ [7] :=
  ⟨rfl,
    (exhausted_forwarder_leaves_conn_registered openTunnel exampleListener 7 refusing
      [.closeSignal] quiet rfl (fun _ _ => ⟨"connection refused", rfl⟩)).1,
    (exhausted_forwarder_leaves_conn_registered openTunnel exampleListener 7 refusing
      [.closeSignal] quiet rfl (fun _ _ => ⟨"connection refused", rfl⟩)).2.1⟩

end sshtunnel
